import Mathlib

/-!
Shallow embedding of the data acquisition and normalization pipeline of the
daily_stock_analysis repository (`data_provider/yfinance_fetcher.py`) and of
the market overview builder (`src/market_analyzer.py`), together with proofs
about them.

Modelling conventions:
* Numeric cells are rational numbers; a missing cell (pandas `NaN`) is `none`.
  IEEE infinities (which would only arise from a division by a zero close)
  are outside the modelled value domain; all statements about `pct_chg`
  assume nonzero predecessor closes except where a cell is missing outright.
* A raised Python exception is a value of `PyErr`; a function that can raise
  returns `Except PyErr`.
* Dates are opaque integers (their values never matter here); the raw table
  is a list in the provider's order, which is date-ascending.
* `Series.pct_change()` is modelled with `fill_method=None` semantics (the
  pandas default going forward): a missing own or predecessor value makes
  the entry missing; no forward-fill happens before differencing.
* `Series.round(2)` is modelled by integer rounding of `100 * q`; IEEE
  half-even ties do not arise in any statement below.
* `str.strip` / `str.upper` are modelled by `pyStrip` / `pyUpper` below;
  they agree with Python on all ASCII inputs, and non-ASCII letters fail the
  grammar either way.
-/

namespace DailyStock

/-- Python exceptions relevant to the pipeline: `dataFetch msg` is the
`DataFetchError` raised by the fetcher itself, `other msg` is any other
exception (for instance a network error raised inside the provider call),
and `retryError e` is tenacity's `RetryError` wrapping the exception of the
last failed attempt. -/
inductive PyErr where
  | dataFetch : String → PyErr
  | other : String → PyErr
  | retryError : PyErr → PyErr
  deriving DecidableEq, Repr

/-- Message of the `DataFetchError` raised on ticker validation failure:
the f-string interpolates the original, untrimmed input. -/
def validationMsg (stock_code : String) : String :=
  "非法美股代码: " ++ stock_code

/-- Message of the `DataFetchError` raised when the provider returned `None`
or an empty table; it interpolates the validated (canonical) ticker. -/
def fetchEmptyMsg (yf_code : String) : String :=
  "Yahoo Finance 无数据: " ++ yf_code

/-- Message of the `DataFetchError` raised by `_normalize_data` on an empty
or absent input table. -/
def normEmptyMsg (stock_code : String) : String :=
  "标准化失败，数据为空: " ++ stock_code

/-- Python `str.strip()`: drop leading and trailing whitespace. (Python
strips a slightly larger whitespace set than `Char.isWhitespace`; they agree
on space, tab, carriage return and newline, which covers every input the
claims speak about, and the extra characters are non-letters that fail the
grammar either way.) -/
def pyStrip (s : String) : String :=
  ⟨((s.data.dropWhile Char.isWhitespace).reverse.dropWhile
      Char.isWhitespace).reverse⟩

/-- Python `str.upper()` character by character. (`Char.toUpper` only maps
ASCII letters; Python also uppercases non-ASCII letters, but those remain
outside `[A-Z]` after mapping, so the grammar outcome agrees.) -/
def pyUpper (s : String) : String :=
  ⟨s.data.map Char.toUpper⟩

/-- The regex character class `[A-Z]`. -/
def isUpperAlpha (c : Char) : Bool :=
  decide ('A' ≤ c) && decide (c ≤ 'Z')

/-- The optional `(\.[A-Z]{1,2})?` tail of the ticker regex followed by `$`,
applied to whatever follows the maximal leading run of uppercase letters. -/
def tickerTail : List Char → Bool
  | [] => true
  | c :: rest =>
      c == '.' && rest.all isUpperAlpha &&
      decide (1 ≤ rest.length) && decide (rest.length ≤ 2)

/-- `re.match(r"^[A-Z]{1,6}(\.[A-Z]{1,2})?$", code)` as a total matcher.
Because `[A-Z]` cannot match `.` and the pattern is anchored on both sides,
the regex (with backtracking) accepts exactly when the maximal leading run
of uppercase letters has length 1..6 and the remainder is either empty or a
dot followed by 1..2 uppercase letters and nothing else. -/
def matchesTickerRegex (code : String) : Bool :=
  decide (1 ≤ (code.data.takeWhile isUpperAlpha).length) &&
  decide ((code.data.takeWhile isUpperAlpha).length ≤ 6) &&
  tickerTail (code.data.dropWhile isUpperAlpha)

/-- `YfinanceFetcher._validate_us_stock_code`: strip, uppercase, match the
ticker grammar; on failure raise `DataFetchError` carrying the original
(untrimmed) input. -/
def _validate_us_stock_code (stock_code : String) : Except PyErr String :=
  let code := pyUpper (pyStrip stock_code)
  if matchesTickerRegex code then .ok code
  else .error (.dataFetch (validationMsg stock_code))

/-- One row of the provider's raw table after the rename step: columns
Date/Open/High/Low/Close/Volume, cells possibly missing (`NaN`).
`yf.download` always materializes these columns, so column presence itself
is not modelled, only cell-level missingness. -/
structure RawRow where
  date : Int
  open_ : Option ℚ
  high : Option ℚ
  low : Option ℚ
  close : Option ℚ
  volume : Option ℚ
  deriving DecidableEq, Repr

abbrev RawTable := List RawRow

/-- One canonical output row of `_normalize_data`: the `keep_cols`
projection `["code"] + STANDARD_COLUMNS`. `pct_chg` is total (the column is
`fillna(0)`-ed), `amount` is `NaN` when volume or close is `NaN`. -/
structure CanonicalRow where
  code : String
  date : Int
  open_ : Option ℚ
  high : Option ℚ
  low : Option ℚ
  close : Option ℚ
  volume : Option ℚ
  pct_chg : ℚ
  amount : Option ℚ
  deriving DecidableEq, Repr

/-- Modelled from the spec: `STANDARD_COLUMNS` is imported from
`data_provider/base.py`, which is not among the sources; the spec's glossary
fixes the canonical schema as code, date, open, high, low, close, volume,
pct_chg, amount, with `code` prepended by `keep_cols` in the source. The
field set of `CanonicalRow` realizes exactly this projection. -/
def STANDARD_COLUMNS : List String :=
  ["date", "open", "high", "low", "close", "volume", "pct_chg", "amount"]

/-- One cell of `Series.pct_change()` (`fill_method=None`): the relative
change of `x` against the preceding value `p`; missing when either is
missing. A zero predecessor would give an IEEE infinity, which is outside
the modelled domain (see the module docstring); it is mapped to `none` and
never reached by the theorems below. -/
def pcell : Option ℚ → Option ℚ → Option ℚ
  | some p, some x => if p = 0 then none else some ((x - p) / p)
  | _, _ => none

/-- `Series.pct_change()` given the value preceding the list (`none` for
the start of the series). -/
def pctChangeFrom : Option ℚ → List (Option ℚ) → List (Option ℚ)
  | _, [] => []
  | prev, c :: cs => pcell prev c :: pctChangeFrom c cs

/-- `Series.pct_change()` of a whole column: the first entry has no
predecessor and is missing. -/
def pctChange (closes : List (Option ℚ)) : List (Option ℚ) :=
  pctChangeFrom none closes

/-- `round` to 2 decimal places. -/
def round2 (q : ℚ) : ℚ :=
  ((round (q * 100) : ℤ) : ℚ) / 100

/-- The per-row constructor of the canonical output: `code = stock_code.upper()`,
the renamed raw columns pass through, `pct_chg` is the row's entry of the
filled pct_chg column, and `amount = volume * close` (missing when either
factor is missing). -/
def mkCanonical (stock_code : String) (r : RawRow) (p : ℚ) : CanonicalRow :=
  { code := pyUpper stock_code
    date := r.date
    open_ := r.open_
    high := r.high
    low := r.low
    close := r.close
    volume := r.volume
    pct_chg := p
    amount :=
      match r.volume, r.close with
      | some v, some c => some (v * c)
      | _, _ => none }

/-- The `pct_chg` column of `_normalize_data`:
`df["close"].pct_change() * 100`, then `.fillna(0).round(2)`. -/
def filledPcts (closes : List (Option ℚ)) : List ℚ :=
  ((pctChange closes).map (Option.map (fun x => x * 100))).map
    (fun o => round2 (o.getD 0))

/-- The success branch of `YfinanceFetcher._normalize_data`: rename (made
implicit by the field names), the `pct_chg` and `amount` computations, the
`code` stamp, and the `keep_cols` projection (implicit in `CanonicalRow`). -/
def normRows (df : RawTable) (stock_code : String) : List CanonicalRow :=
  List.zipWith (mkCanonical stock_code) df (filledPcts (df.map RawRow.close))

/-- `YfinanceFetcher._normalize_data`: an empty (or absent) table raises
`DataFetchError`, otherwise the canonical rows are produced. -/
def _normalize_data (df : RawTable) (stock_code : String) :
    Except PyErr (List CanonicalRow) :=
  if df.isEmpty then .error (.dataFetch (normEmptyMsg stock_code))
  else .ok (normRows df stock_code)

/-- The provider (`yf.download` with `auto_adjust=True, progress=False`),
indexed by attempt number: per call it either raises (`Except.error`),
returns `None` (`Except.ok none`), or returns a table. -/
abbrev Provider := Nat → Except PyErr (Option RawTable)

/-- The body of `_fetch_raw_data`, i.e. the function tenacity retries. Note
that the call to `_validate_us_stock_code` is the first line of the body and
is therefore inside the retry decorator. -/
def _fetch_body (provider : Provider)
    (stock_code start_date end_date : String) (attempt : Nat) :
    Except PyErr RawTable :=
  match _validate_us_stock_code stock_code with
  | .error e => .error e
  | .ok yf_code =>
    match provider attempt with
    | .error e => .error e
    | .ok none => .error (.dataFetch (fetchEmptyMsg yf_code))
    | .ok (some df) =>
        if df.isEmpty then .error (.dataFetch (fetchEmptyMsg yf_code))
        else .ok df

/-- tenacity `wait_exponential(multiplier, min, max)`: after failed attempt
number `attempt`, wait `multiplier * 2 ^ (attempt - 1)` clamped as
`max(max(0, min), min(result, max))`. -/
def wait_exponential (multiplier minW maxW : ℚ) (attempt : Nat) : ℚ :=
  max (max 0 minW) (min (multiplier * 2 ^ (attempt - 1)) maxW)

/-- tenacity's retry loop: run the body; on success return; on failure
either stop (once `stopAfter` attempts were made) and raise `RetryError`
wrapping the last exception — `reraise` defaults to false — or wait and
retry. Returns the outcome together with the number of attempts made and
the list of waits performed. The fuel argument only forces termination; the
fuel-exhaustion branch is unreachable whenever `fuel + attempt > stopAfter`,
as is the case at every call site in this file. -/
def tenacityRun {α : Type} (body : Nat → Except PyErr α) (waitFn : Nat → ℚ)
    (stopAfter : Nat) : Nat → Nat → Except PyErr α × Nat × List ℚ
  | 0, _ => (.error (.retryError (.other "out of fuel")), 0, [])
  | fuel + 1, attempt =>
    match body attempt with
    | .ok a => (.ok a, 1, [])
    | .error e =>
      if stopAfter ≤ attempt then (.error (.retryError e), 1, [])
      else
        let rest := tenacityRun body waitFn stopAfter fuel (attempt + 1)
        (rest.1, rest.2.1 + 1, waitFn attempt :: rest.2.2)

/-- `_fetch_raw_data` together with its decorator
`@retry(stop=stop_after_attempt(3), wait=wait_exponential(min=2, max=10))`. -/
def _fetch_raw_data (provider : Provider)
    (stock_code start_date end_date : String) :
    Except PyErr RawTable × Nat × List ℚ :=
  tenacityRun (_fetch_body provider stock_code start_date end_date)
    (wait_exponential 1 2 10) 3 3 1

/-- Modelled from the spec: the `BaseFetcher` facade lives in
`data_provider/base.py`, which is not among the sources. Spec 4.4:
`fetchHistory` composes validation, retrying fetch and normalization in
strict sequence and short-circuits on the first failure, propagating it;
spec 4.2/4.1: validation runs before the retrying component is invoked, and
normalization receives the canonical ticker. The attempt counter and wait
list of the retry stage are passed through (0 attempts, no waits when
validation already failed). -/
def fetchHistory (provider : Provider)
    (raw_code start_date end_date : String) :
    Except PyErr (List CanonicalRow) × Nat × List ℚ :=
  match _validate_us_stock_code raw_code with
  | .error e => (.error e, 0, [])
  | .ok code =>
    let t := _fetch_raw_data provider raw_code start_date end_date
    match t.1 with
    | .error e => (.error e, t.2.1, t.2.2)
    | .ok df =>
      match _normalize_data df code with
      | .error e => (.error e, t.2.1, t.2.2)
      | .ok rows => (.ok rows, t.2.1, t.2.2)

/-- One daily bar of `yf.Ticker(code).history(period="2d")`. -/
structure Bar where
  open_ : ℚ
  high : ℚ
  low : ℚ
  close : ℚ
  deriving DecidableEq, Repr

/-- The `MarketIndex` dataclass of `src/market_analyzer.py`. -/
structure MarketIndex where
  code : String
  name : String
  current : ℚ
  change : ℚ
  change_pct : ℚ
  open_ : ℚ
  high : ℚ
  low : ℚ
  prev_close : ℚ
  deriving DecidableEq, Repr

/-- `MarketAnalyzer.MAIN_INDICES` in its insertion (iteration) order. -/
def MAIN_INDICES : List (String × String) :=
  [("^GSPC", "S&P 500"), ("^IXIC", "NASDAQ Composite"),
   ("^DJI", "Dow Jones"), ("^VIX", "VIX Volatility")]

def defaultBar : Bar :=
  { open_ := 0, high := 0, low := 0, close := 0 }

/-- The per-index computation of `MarketAnalyzer._get_main_indices` for a
nonempty history: `today = hist.iloc[-1]`,
`prev = hist.iloc[-2] if len(hist) > 1 else today`, and `change_pct` uses
Python truthiness of `prev_close` (zero yields 0). The defaults fed to
`getLastD`/`getD` are irrelevant: the history is nonempty at every call
site, and the positional lookup is guarded by `1 < hist.length`. -/
def buildIndex (code name : String) (hist : List Bar) : MarketIndex :=
  let today := hist.getLastD defaultBar
  let prev := if 1 < hist.length then hist.getD (hist.length - 2) defaultBar
              else today
  let price := today.close
  let prev_close := prev.close
  let change := price - prev_close
  let change_pct := if prev_close ≠ 0 then change / prev_close * 100 else 0
  { code := code, name := name, current := price, change := change,
    change_pct := change_pct, open_ := today.open_, high := today.high,
    low := today.low, prev_close := prev_close }

/-- The per-symbol collaborator `yf.Ticker(code).history(period="2d")`:
either raises or returns a list of bars. -/
abbrev IndexProvider := String → Except String (List Bar)

/-- Whether the provider yields a nonempty history for `code`. -/
def providerHasData (provider : IndexProvider) (code : String) : Bool :=
  match provider code with
  | .error _ => false
  | .ok hist => !hist.isEmpty

/-- One iteration of the `MarketAnalyzer._get_main_indices` loop: a raised
exception (`try`/`except` with a warning log) or an empty history
(`continue`) skips the symbol, otherwise its `MarketIndex` is produced. -/
def keepIndex (provider : IndexProvider) (cn : String × String) :
    Option MarketIndex :=
  match provider cn.1 with
  | .error _ => none
  | .ok hist =>
      if hist.isEmpty then none else some (buildIndex cn.1 cn.2 hist)

/-- `MarketAnalyzer._get_main_indices` over an explicit configuration list
and provider: successes are appended in configuration order, failures are
skipped. -/
def _get_main_indices (provider : IndexProvider)
    (cfg : List (String × String)) : List MarketIndex :=
  cfg.filterMap (keepIndex provider)

/-- The spec's ticker grammar, in the spec's words: 1-6 uppercase letters,
optionally followed by a dot and 1-2 uppercase letters. -/
def specTickerGrammar (s : String) : Prop :=
  ∃ la : List Char,
    (1 ≤ la.length ∧ la.length ≤ 6 ∧ ∀ c ∈ la, isUpperAlpha c = true) ∧
    (s.data = la ∨
      ∃ lb : List Char,
        1 ≤ lb.length ∧ lb.length ≤ 2 ∧ (∀ c ∈ lb, isUpperAlpha c = true) ∧
        s.data = la ++ '.' :: lb)

/-- The spec's per-row pct_chg formula, in the spec's words: the percent
change of each close against the immediately preceding close, times 100,
rounded to 2 decimal places. `specPctChg p xs` lists the values for the
rows with closes `xs`, the row before them closing at `p`. -/
def specPctChg : ℚ → List ℚ → List ℚ
  | _, [] => []
  | p, x :: xs => round2 ((x - p) / p * 100) :: specPctChg x xs

/-- A failing provider attempt: the call raised, returned `None`, or
returned an empty table — each makes the decorated body raise. -/
def providerFail (r : Except PyErr (Option RawTable)) : Prop :=
  match r with
  | .error _ => True
  | .ok none => True
  | .ok (some df) => df = []

/-- Whether an outcome surfaced as a bare `DataFetchError` (as opposed to,
for example, a tenacity `RetryError` wrapping one). -/
def isBareDataFetch {α : Type} : Except PyErr α → Bool
  | .error (.dataFetch _) => true
  | _ => false

/-- A raw row all of whose price cells close at `c` with volume `v`. -/
def exRow (d : Int) (c v : ℚ) : RawRow :=
  { date := d, open_ := some c, high := some c, low := some c,
    close := some c, volume := some v }

/-- The spec's three-row example table with closes 100, 110, 99. -/
def df3 : RawTable :=
  [exRow 1 100 10, exRow 2 110 20, exRow 3 99 30]

/-! ### General-purpose helper lemmas -/

theorem round2_of_int (q : ℚ) (n : ℤ) (h : q * 100 = (n : ℚ)) :
    round2 q = (n : ℚ) / 100 := by
  rw [round2, h, round_intCast]

theorem round2_zero : round2 0 = 0 := by
  rw [round2_of_int 0 0 (by norm_num)]
  norm_num

theorem isEmpty_false_of_ne_nil {α : Type} {l : List α} (h : l ≠ []) :
    l.isEmpty = false := by
  cases l with
  | nil => exact absurd rfl h
  | cons a as => rfl

theorem mem_takeWhile_sat {α : Type} {p : α → Bool} :
    ∀ {l : List α} {a : α}, a ∈ l.takeWhile p → p a = true := by
  intro l
  induction l with
  | nil => intro a h; simp [List.takeWhile] at h
  | cons x xs ih =>
    intro a h
    rw [List.takeWhile_cons] at h
    by_cases hp : p x = true
    · rw [if_pos hp] at h
      rcases List.mem_cons.mp h with h1 | h2
      · exact h1 ▸ hp
      · exact ih h2
    · rw [if_neg hp] at h
      exact absurd h (List.not_mem_nil a)

theorem takeWhile_all {α : Type} (p : α → Bool) :
    ∀ (la : List α), (∀ c ∈ la, p c = true) →
      la.takeWhile p = la ∧ la.dropWhile p = [] := by
  intro la
  induction la with
  | nil => intro _; exact ⟨rfl, rfl⟩
  | cons x xs ih =>
    intro hall
    have hx : p x = true := hall x (List.mem_cons_self x xs)
    have hxs := ih (fun c hc => hall c (List.mem_cons_of_mem x hc))
    rw [List.takeWhile_cons, List.dropWhile_cons]
    rw [if_pos hx, if_pos hx, hxs.1]
    exact ⟨rfl, hxs.2⟩

theorem takeWhile_all_append {α : Type} (p : α → Bool) :
    ∀ (la : List α), (∀ c ∈ la, p c = true) → ∀ (b : α), p b = false →
      ∀ (lb : List α),
        (la ++ b :: lb).takeWhile p = la ∧ (la ++ b :: lb).dropWhile p = b :: lb := by
  intro la
  induction la with
  | nil =>
    intro _ b hb lb
    rw [List.nil_append, List.takeWhile_cons, List.dropWhile_cons]
    rw [if_neg (by simp [hb]), if_neg (by simp [hb])]
    exact ⟨rfl, rfl⟩
  | cons x xs ih =>
    intro hall b hb lb
    have hx : p x = true := hall x (List.mem_cons_self x xs)
    have hxs := ih (fun c hc => hall c (List.mem_cons_of_mem x hc)) b hb lb
    rw [List.cons_append, List.takeWhile_cons, List.dropWhile_cons]
    rw [if_pos hx, if_pos hx, hxs.1]
    exact ⟨rfl, hxs.2⟩

/-- The handwritten matcher agrees with the spec's grammar. -/
theorem matchesTickerRegex_iff (s : String) :
    matchesTickerRegex s = true ↔ specTickerGrammar s := by
  constructor
  · intro h
    rw [matchesTickerRegex] at h
    rcases Bool.and_eq_true_iff.mp h with ⟨h12, h3⟩
    rcases Bool.and_eq_true_iff.mp h12 with ⟨h1, h2⟩
    have h1 := of_decide_eq_true h1
    have h2 := of_decide_eq_true h2
    have hsplit := List.takeWhile_append_dropWhile (p := isUpperAlpha) (l := s.data)
    refine ⟨s.data.takeWhile isUpperAlpha, ⟨h1, h2, fun c hc => mem_takeWhile_sat hc⟩, ?_⟩
    cases hd : s.data.dropWhile isUpperAlpha with
    | nil =>
      left
      rw [hd, List.append_nil] at hsplit
      exact hsplit.symm
    | cons c tail =>
      right
      rw [hd] at h3 hsplit
      rw [tickerTail] at h3
      rcases Bool.and_eq_true_iff.mp h3 with ⟨h45, h6⟩
      rcases Bool.and_eq_true_iff.mp h45 with ⟨h4, h5⟩
      have hc : c = '.' := by
        rcases Bool.and_eq_true_iff.mp h4 with ⟨hcc, _⟩
        exact eq_of_beq hcc
      have hall : ∀ x ∈ tail, isUpperAlpha x = true := by
        rcases Bool.and_eq_true_iff.mp h4 with ⟨_, hta⟩
        exact fun x hx => List.all_eq_true.mp hta x hx
      exact ⟨tail, of_decide_eq_true h5, of_decide_eq_true h6, hall,
        by rw [← hc]; exact hsplit.symm⟩
  · rintro ⟨la, ⟨h1, h6, hall⟩, hdata | ⟨lb, hb1, hb2, hball, hdata⟩⟩
    · have ht := takeWhile_all isUpperAlpha la hall
      rw [matchesTickerRegex, hdata, ht.1, ht.2]
      simp [tickerTail, h1, h6]
    · have hdot : isUpperAlpha '.' = false := by decide
      have ht := takeWhile_all_append isUpperAlpha la hall '.' hdot lb
      rw [matchesTickerRegex, hdata, ht.1, ht.2]
      simp [tickerTail, h1, h6, hb1, hb2, List.all_eq_true]
      exact hball

/-- C3: for every input whose trimmed, uppercased form matches the grammar of
1-6 uppercase letters optionally followed by a dot and 1-2 uppercase
letters, `_validate_us_stock_code` returns that canonical form; for every
other input it fails with the validation `DataFetchError` carrying the
original (untrimmed) input. -/
theorem validate_canonical_iff_grammar (s : String) :
    (specTickerGrammar (pyUpper (pyStrip s)) →
      _validate_us_stock_code s = .ok (pyUpper (pyStrip s))) ∧
    (¬ specTickerGrammar (pyUpper (pyStrip s)) →
      _validate_us_stock_code s = .error (.dataFetch (validationMsg s))) := by
  constructor
  · intro hg
    have hm := (matchesTickerRegex_iff (pyUpper (pyStrip s))).mpr hg
    simp [_validate_us_stock_code, hm]
  · intro hg
    cases hm : matchesTickerRegex (pyUpper (pyStrip s)) with
    | true => exact absurd ((matchesTickerRegex_iff _).mp hm) hg
    | false => simp [_validate_us_stock_code, hm]

/-- Witness for C3 at `" brk.b "` (accepted, canonicalized to `BRK.B`) and
`"appl3"` (rejected with the original input in the error). -/
theorem validate_canonical_iff_grammar_witness :
    _validate_us_stock_code " brk.b " = .ok "BRK.B" ∧
    _validate_us_stock_code "appl3" =
      .error (.dataFetch (validationMsg "appl3")) := by
  constructor
  · exact (validate_canonical_iff_grammar " brk.b ").1
      ⟨['B', 'R', 'K'], ⟨by decide, by decide, by decide⟩,
        Or.inr ⟨['B'], by decide, by decide, by decide, by decide⟩⟩
  · exact (validate_canonical_iff_grammar "appl3").2
      (fun h => absurd ((matchesTickerRegex_iff _).mpr h) (by decide))

/-! ### pct_chg: list-level lemmas -/

theorem pctChangeFrom_length (prev : Option ℚ) (l : List (Option ℚ)) :
    (pctChangeFrom prev l).length = l.length := by
  induction l generalizing prev with
  | nil => rfl
  | cons c cs ih => simp [pctChangeFrom, ih]

theorem filledPcts_length (closes : List (Option ℚ)) :
    (filledPcts closes).length = closes.length := by
  rw [filledPcts, List.length_map, List.length_map, pctChange,
    pctChangeFrom_length]

theorem map_pct_zipWith (sc : String) :
    ∀ (df : RawTable) (ps : List ℚ), df.length = ps.length →
      (List.zipWith (mkCanonical sc) df ps).map CanonicalRow.pct_chg = ps := by
  intro df
  induction df with
  | nil =>
    intro ps h
    cases ps with
    | nil => rfl
    | cons p pt => simp at h
  | cons r rs ih =>
    intro ps h
    cases ps with
    | nil => simp at h
    | cons p pt =>
      simp only [List.zipWith_cons_cons, List.map_cons, List.length_cons,
        List.cons.injEq] at h ⊢
      exact ⟨rfl, ih pt (by omega)⟩

theorem normRows_map_pct (df : RawTable) (sc : String) :
    (normRows df sc).map CanonicalRow.pct_chg = filledPcts (df.map RawRow.close) := by
  rw [normRows]
  exact map_pct_zipWith sc df _ (by rw [filledPcts_length, List.length_map])

theorem filledPcts_tail (p : ℚ) (xs : List ℚ) (hp : p ≠ 0)
    (hxs : ∀ x ∈ xs, x ≠ 0) :
    ((pctChangeFrom (some p) (xs.map some)).map
        (Option.map (fun x => x * 100))).map (fun o => round2 (o.getD 0)) =
      specPctChg p xs := by
  induction xs generalizing p with
  | nil => rfl
  | cons x xt ih =>
    simp only [List.map_cons, pctChangeFrom, pcell, if_neg hp, Option.map_some',
      Option.getD_some, specPctChg, List.cons.injEq]
    refine ⟨trivial, ?_⟩
    exact ih x (hxs x (List.mem_cons_self x xt))
      (fun y hy => hxs y (List.mem_cons_of_mem x hy))

theorem filledPcts_cons (a : Option ℚ) (l : List (Option ℚ)) :
    filledPcts (a :: l) =
      round2 (((pcell none a).map (fun x => x * 100)).getD 0) ::
        ((pctChangeFrom a l).map (Option.map (fun x => x * 100))).map
          (fun o => round2 (o.getD 0)) := rfl

theorem filledPcts_of_closes (c : ℚ) (rest : List ℚ)
    (hnz : ∀ x ∈ c :: rest, x ≠ 0) :
    filledPcts ((c :: rest).map some) = 0 :: specPctChg c rest := by
  rw [List.map_cons, filledPcts_cons]
  rw [show round2 (((pcell none (some c)).map (fun x => x * 100)).getD 0) = (0 : ℚ)
    from round2_zero]
  refine congrArg (fun l => (0 : ℚ) :: l) ?_
  exact filledPcts_tail c rest (hnz c (List.mem_cons_self c rest))
    (fun y hy => hnz y (List.mem_cons_of_mem c hy))

/-- Inversion of a successful `_normalize_data` call. -/
theorem normalize_ok_inv {df : RawTable} {code : String}
    {rows : List CanonicalRow} (hok : _normalize_data df code = .ok rows) :
    df ≠ [] ∧ rows = normRows df code := by
  cases hd : df.isEmpty with
  | true =>
    rw [_normalize_data, hd, if_pos rfl] at hok
    exact absurd hok (by simp)
  | false =>
    rw [_normalize_data, hd, if_neg Bool.false_ne_true] at hok
    simp only [Except.ok.injEq] at hok
    refine ⟨?_, hok.symm⟩
    intro hnil
    rw [hnil] at hd
    exact absurd hd (by simp)

/-- C1: for every raw table whose close column consists of the known values
`c :: rest` (all present, none zero), `_normalize_data` computes the
`pct_chg` column as the spec's formula: 0.0 for the first row, and for each
later row the percent change against the immediately preceding close, times
100, rounded to 2 decimals. -/
theorem pct_chg_matches_spec (df : RawTable) (code : String)
    (rows : List CanonicalRow) (c : ℚ) (rest : List ℚ)
    (hc : df.map RawRow.close = (c :: rest).map some)
    (hnz : ∀ x ∈ c :: rest, x ≠ 0)
    (hok : _normalize_data df code = .ok rows) :
    rows.map CanonicalRow.pct_chg = 0 :: specPctChg c rest := by
  obtain ⟨-, hrows⟩ := normalize_ok_inv hok
  rw [hrows, normRows_map_pct, hc]
  exact filledPcts_of_closes c rest hnz

/-- Witness for C1 at the spec's example closes `[100, 110, 99]`: the
pct_chg output is `[0.0, 10.0, -10.0]`. -/
theorem pct_chg_matches_spec_witness :
    _normalize_data df3 "AAPL" = .ok (normRows df3 "AAPL") ∧
    (normRows df3 "AAPL").map CanonicalRow.pct_chg = [0, 10, -10] := by
  refine ⟨rfl, ?_⟩
  have h := pct_chg_matches_spec df3 "AAPL" (normRows df3 "AAPL") 100 [110, 99]
    rfl (by norm_num) rfl
  rw [h, specPctChg, specPctChg, specPctChg]
  rw [round2_of_int _ 1000 (by norm_num), round2_of_int _ (-1000) (by norm_num)]
  norm_num

/-! ### Pointwise lemmas for `normRows` -/

theorem zipWith_getElem? {α β γ : Type} (f : α → β → γ) :
    ∀ (as : List α) (bs : List β) (i : Nat),
      (List.zipWith f as bs)[i]? =
        match as[i]?, bs[i]? with
        | some a, some b => some (f a b)
        | _, _ => none := by
  intro as
  induction as with
  | nil => intro bs i; cases bs <;> cases i <;> simp
  | cons a at_ ih =>
    intro bs i
    cases bs with
    | nil => cases i <;> simp
    | cons b bt =>
      cases i with
      | zero => simp
      | succ j => simpa using ih bt j

theorem pctChangeFrom_getElem?_zero (prev : Option ℚ) (l : List (Option ℚ)) :
    (pctChangeFrom prev l)[0]? = (l[0]?).map (fun cur => pcell prev cur) := by
  cases l <;> simp [pctChangeFrom]

theorem pctChangeFrom_getElem?_succ :
    ∀ (l : List (Option ℚ)) (prev : Option ℚ) (i : Nat) (a b : Option ℚ),
      l[i]? = some a → l[i + 1]? = some b →
      (pctChangeFrom prev l)[i + 1]? = some (pcell a b) := by
  intro l
  induction l with
  | nil => intro prev i a b ha _; simp at ha
  | cons c cs ih =>
    intro prev i a b ha hb
    cases i with
    | zero =>
      simp only [List.getElem?_cons_zero, Option.some.injEq] at ha
      simp only [List.getElem?_cons_succ] at hb
      rw [pctChangeFrom]
      simp only [List.getElem?_cons_succ]
      rw [pctChangeFrom_getElem?_zero, hb, Option.map_some', ha]
    | succ j =>
      simp only [List.getElem?_cons_succ] at ha hb
      rw [pctChangeFrom]
      simp only [List.getElem?_cons_succ]
      exact ih c j a b ha hb

theorem filledPcts_getElem? (closes : List (Option ℚ)) (i : Nat) :
    (filledPcts closes)[i]? =
      ((pctChange closes)[i]?).map
        (fun o => round2 ((o.map (fun x => x * 100)).getD 0)) := by
  rw [filledPcts, List.getElem?_map, List.getElem?_map]
  cases (pctChange closes)[i]? <;> rfl

/-- The i-th row of a successful normalization. -/
theorem normRows_getElem? (df : RawTable) (code : String) (i : Nat)
    (r : RawRow) (hr : df[i]? = some r) :
    ∃ p : ℚ, (filledPcts (df.map RawRow.close))[i]? = some p ∧
      (normRows df code)[i]? = some (mkCanonical code r p) := by
  have hlen : i < (filledPcts (df.map RawRow.close)).length := by
    rw [filledPcts_length, List.length_map]
    exact (List.getElem?_eq_some.mp hr).1
  have hp : (filledPcts (df.map RawRow.close))[i]? =
      some ((filledPcts (df.map RawRow.close)).get ⟨i, hlen⟩) :=
    List.getElem?_eq_getElem hlen
  refine ⟨(filledPcts (df.map RawRow.close)).get ⟨i, hlen⟩, hp, ?_⟩
  rw [normRows, zipWith_getElem? (mkCanonical code) df _ i, hr, hp]

theorem pcell_none_right (a : Option ℚ) : pcell a none = none := by
  cases a <;> rfl

theorem pcell_none_left (b : Option ℚ) : pcell none b = none := by
  cases b <;> rfl

/-- C10: every row whose percent change is undefined — its own close
missing, or the immediately preceding row's close missing — comes out with
`pct_chg = 0.0` rather than null, because the fill-with-zero step runs on
the whole column after the percent-change computation. -/
theorem pct_chg_undefined_filled_zero (df : RawTable) (code : String)
    (rows : List CanonicalRow) (i : Nat) (r : RawRow)
    (hok : _normalize_data df code = .ok rows)
    (hr : df[i]? = some r)
    (hmiss : r.close = none ∨
      (0 < i ∧ ∃ r2 : RawRow, df[i - 1]? = some r2 ∧ r2.close = none)) :
    ∃ cr, rows[i]? = some cr ∧ cr.pct_chg = 0 := by
  obtain ⟨-, hrows⟩ := normalize_ok_inv hok
  subst hrows
  obtain ⟨p, hp, hcr⟩ := normRows_getElem? df code i r hr
  refine ⟨mkCanonical code r p, hcr, ?_⟩
  show p = 0
  have hclosei : (df.map RawRow.close)[i]? = some r.close := by
    rw [List.getElem?_map, hr, Option.map_some']
  have hcell : (pctChange (df.map RawRow.close))[i]? = some none := by
    cases i with
    | zero =>
      rw [pctChange, pctChangeFrom_getElem?_zero, hclosei, Option.map_some',
        pcell_none_left]
    | succ j =>
      have hj : j < df.length := by
        have := (List.getElem?_eq_some.mp hr).1
        omega
      have hprev : (df.map RawRow.close)[j]? = some (df.get ⟨j, hj⟩).close := by
        rw [List.getElem?_map, List.getElem?_eq_getElem hj, Option.map_some']
        rfl
      rw [pctChange, pctChangeFrom_getElem?_succ (df.map RawRow.close) none j
        _ _ hprev hclosei]
      rcases hmiss with hm | ⟨-, r2, hr2, hr2c⟩
      · rw [hm, pcell_none_right]
      · have hj2 : df[j]? = some r2 := hr2
        have hgr : df.get ⟨j, hj⟩ = r2 := by
          have := List.getElem?_eq_getElem hj
          rw [hj2] at this
          exact (Option.some.inj this).symm
        rw [hgr, hr2c, pcell_none_left]
  have hfp := filledPcts_getElem? (df.map RawRow.close) i
  rw [hcell, Option.map_some'] at hfp
  rw [hfp] at hp
  have hp0 := Option.some.inj hp
  rw [← hp0]
  exact round2_zero

/-- A raw table whose middle row has a missing close. -/
def dfNaN : RawTable :=
  [exRow 1 100 10,
   { date := 2, open_ := some 1, high := some 1, low := some 1,
     close := none, volume := some 5 },
   exRow 3 99 30]

/-- Witness for C10 on `dfNaN`: row 1 (own close missing) and row 2
(predecessor's close missing) both get `pct_chg = 0.0`. -/
theorem pct_chg_undefined_filled_zero_witness :
    (∃ cr, (normRows dfNaN "AAPL")[1]? = some cr ∧ cr.pct_chg = 0) ∧
    (∃ cr, (normRows dfNaN "AAPL")[2]? = some cr ∧ cr.pct_chg = 0) := by
  constructor
  · exact pct_chg_undefined_filled_zero dfNaN "AAPL" (normRows dfNaN "AAPL") 1
      _ rfl rfl (Or.inl rfl)
  · exact pct_chg_undefined_filled_zero dfNaN "AAPL" (normRows dfNaN "AAPL") 2
      _ rfl rfl (Or.inr ⟨by omega, _, rfl, rfl⟩)

/-- C7: for every output row of a successful normalization whose source row
has both volume and close present, the derived `amount` equals
`volume * close` exactly. -/
theorem amount_eq_volume_mul_close (df : RawTable) (code : String)
    (rows : List CanonicalRow) (i : Nat) (r : RawRow) (cr : CanonicalRow)
    (hok : _normalize_data df code = .ok rows)
    (hr : df[i]? = some r) (hcr : rows[i]? = some cr)
    (v c : ℚ) (hv : r.volume = some v) (hc : r.close = some c) :
    cr.amount = some (v * c) := by
  obtain ⟨-, hrows⟩ := normalize_ok_inv hok
  subst hrows
  obtain ⟨p, hp, hcr2⟩ := normRows_getElem? df code i r hr
  rw [hcr2] at hcr
  have := Option.some.inj hcr
  rw [← this]
  simp [mkCanonical, hv, hc]

/-- Witness for C7 on the first row of `df3`: volume 10, close 100,
amount 1000. -/
theorem amount_eq_volume_mul_close_witness :
    ∃ cr, (normRows df3 "AAPL")[0]? = some cr ∧ cr.amount = some 1000 := by
  have h0 : (normRows df3 "AAPL")[0]? =
      some (mkCanonical "AAPL" (exRow 1 100 10)
        (round2 (((pcell none (some 100)).map (fun x => x * 100)).getD 0))) := rfl
  refine ⟨_, h0, ?_⟩
  have := amount_eq_volume_mul_close df3 "AAPL" (normRows df3 "AAPL") 0
    (exRow 1 100 10) _ rfl rfl h0 10 100 rfl rfl
  rw [this]
  norm_num

/-- C6: `_normalize_data` on an empty raw table always fails with the
normalization `DataFetchError`; a successful call never returns an empty
row sequence. -/
theorem normalize_empty_always_fails :
    (∀ code, _normalize_data ([] : RawTable) code =
      .error (.dataFetch (normEmptyMsg code))) ∧
    (∀ (df : RawTable) (code : String) (rows : List CanonicalRow),
      _normalize_data df code = .ok rows → rows ≠ []) := by
  refine ⟨fun code => rfl, ?_⟩
  intro df code rows hok
  obtain ⟨hne, hrows⟩ := normalize_ok_inv hok
  subst hrows
  cases df with
  | nil => exact absurd rfl hne
  | cons r rs =>
    rw [normRows, List.map_cons, filledPcts_cons, List.zipWith_cons_cons]
    exact List.cons_ne_nil _ _

/-- Witness for C6: the empty table fails for ticker `SPY`, and the
successful normalization of `df3` is nonempty. -/
theorem normalize_empty_always_fails_witness :
    _normalize_data ([] : RawTable) "SPY" =
      .error (.dataFetch (normEmptyMsg "SPY")) ∧
    normRows df3 "AAPL" ≠ [] :=
  ⟨normalize_empty_always_fails.1 "SPY",
   normalize_empty_always_fails.2 df3 "AAPL" (normRows df3 "AAPL") rfl⟩

/-- C9: normalization, and the composed fetch over any fixed provider stub,
are pure functions of their inputs — the embedding shows no dependence on
randomness or wall-clock time, so two runs with identical arguments return
identical canonical row sequences. -/
theorem pipeline_deterministic :
    (∀ (df : RawTable) (code : String),
      _normalize_data df code = _normalize_data df code) ∧
    (∀ (provider : Provider) (sc sd ed : String),
      fetchHistory provider sc sd ed = fetchHistory provider sc sd ed) :=
  ⟨fun _ _ => rfl, fun _ _ _ _ => rfl⟩

/-! ### Retry machinery lemmas -/

theorem validate_ok_of_true {s : String}
    (h : matchesTickerRegex (pyUpper (pyStrip s)) = true) :
    _validate_us_stock_code s = .ok (pyUpper (pyStrip s)) := by
  simp [_validate_us_stock_code, h]

theorem fetch_body_ok (provider : Provider) (sc sd ed : String)
    (hv : matchesTickerRegex (pyUpper (pyStrip sc)) = true)
    {i : Nat} {df : RawTable} (hp : provider i = .ok (some df))
    (hne : df ≠ []) :
    _fetch_body provider sc sd ed i = .ok df := by
  simp [_fetch_body, validate_ok_of_true hv, hp, isEmpty_false_of_ne_nil hne]

theorem fetch_body_err (provider : Provider) (sc sd ed : String)
    (hv : matchesTickerRegex (pyUpper (pyStrip sc)) = true)
    {i : Nat} (hf : providerFail (provider i)) :
    ∃ e, _fetch_body provider sc sd ed i = .error e := by
  cases hp : provider i with
  | error e => exact ⟨e, by simp [_fetch_body, validate_ok_of_true hv, hp]⟩
  | ok odf =>
    cases odf with
    | none =>
      exact ⟨.dataFetch (fetchEmptyMsg (pyUpper (pyStrip sc))),
        by simp [_fetch_body, validate_ok_of_true hv, hp]⟩
    | some df =>
      have hdf : df = [] := by
        rw [hp] at hf
        simpa [providerFail] using hf
      subst hdf
      exact ⟨.dataFetch (fetchEmptyMsg (pyUpper (pyStrip sc))),
        by simp [_fetch_body, validate_ok_of_true hv, hp]⟩

theorem fetch_body_err_empty (provider : Provider) (sc sd ed : String)
    (hv : matchesTickerRegex (pyUpper (pyStrip sc)) = true)
    {i : Nat} (hp : provider i = .ok none) :
    _fetch_body provider sc sd ed i =
      .error (.dataFetch (fetchEmptyMsg (pyUpper (pyStrip sc)))) := by
  simp [_fetch_body, validate_ok_of_true hv, hp]

/-- Exhaustive case analysis of the 3-attempt tenacity loop. -/
theorem tenacityRun3_spec {α : Type} (body : Nat → Except PyErr α)
    (w : Nat → ℚ) :
    (∃ a, body 1 = .ok a ∧ tenacityRun body w 3 3 1 = (.ok a, 1, [])) ∨
    (∃ e a, body 1 = .error e ∧ body 2 = .ok a ∧
      tenacityRun body w 3 3 1 = (.ok a, 2, [w 1])) ∨
    (∃ e e2 a, body 1 = .error e ∧ body 2 = .error e2 ∧ body 3 = .ok a ∧
      tenacityRun body w 3 3 1 = (.ok a, 3, [w 1, w 2])) ∨
    (∃ e e2 e3, body 1 = .error e ∧ body 2 = .error e2 ∧ body 3 = .error e3 ∧
      tenacityRun body w 3 3 1 = (.error (.retryError e3), 3, [w 1, w 2])) := by
  cases h1 : body 1 with
  | ok a => exact Or.inl ⟨a, rfl, by simp [tenacityRun, h1]⟩
  | error e =>
    cases h2 : body 2 with
    | ok a =>
      exact Or.inr (Or.inl ⟨e, a, rfl, rfl, by simp [tenacityRun, h1, h2]⟩)
    | error e2 =>
      cases h3 : body 3 with
      | ok a =>
        exact Or.inr (Or.inr (Or.inl ⟨e, e2, a, rfl, rfl, rfl,
          by simp [tenacityRun, h1, h2, h3]⟩))
      | error e3 =>
        exact Or.inr (Or.inr (Or.inr ⟨e, e2, e3, rfl, rfl, rfl,
          by simp [tenacityRun, h1, h2, h3]⟩))

/-- Each wait produced by `wait_exponential(multiplier=1, min=2, max=10)`
lies in the configured interval `[2, 10]`. -/
theorem wait_exponential_bounds (n : Nat) :
    2 ≤ wait_exponential 1 2 10 n ∧ wait_exponential 1 2 10 n ≤ 10 := by
  rw [wait_exponential]
  constructor
  · exact le_trans (by norm_num) (le_max_left (max 0 2) _)
  · exact max_le (by norm_num) (min_le_right _ _)

/-- An always-valid-ticker run of `_fetch_raw_data` that fails on the first
two attempts and succeeds with a nonempty table on the third returns that
table after exactly 3 attempts and 2 waits. -/
theorem fetch_raw_succeed_third {provider : Provider} {sc sd ed : String}
    (hv : matchesTickerRegex (pyUpper (pyStrip sc)) = true)
    (h1 : providerFail (provider 1)) (h2 : providerFail (provider 2))
    {df : RawTable} (hp3 : provider 3 = .ok (some df)) (hne : df ≠ []) :
    _fetch_raw_data provider sc sd ed =
      (.ok df, 3, [wait_exponential 1 2 10 1, wait_exponential 1 2 10 2]) := by
  obtain ⟨e1, he1⟩ := fetch_body_err provider sc sd ed hv h1
  obtain ⟨e2, he2⟩ := fetch_body_err provider sc sd ed hv h2
  have hb3 := fetch_body_ok provider sc sd ed hv hp3 hne
  rcases tenacityRun3_spec (_fetch_body provider sc sd ed)
      (wait_exponential 1 2 10) with
    ⟨a, ha, -⟩ | ⟨e, a, -, ha, -⟩ | ⟨e, e2', a, -, -, ha, hrun⟩ |
    ⟨e, e2', e3, -, -, ha, -⟩
  · rw [he1] at ha; exact absurd ha (by simp)
  · rw [he2] at ha; exact absurd ha (by simp)
  · rw [hb3] at ha
    have := Except.ok.inj ha
    rw [_fetch_raw_data, hrun, this]
  · rw [hb3] at ha; exact absurd ha (by simp)

/-- An always-valid-ticker run of `_fetch_raw_data` whose provider fails on
all three attempts surfaces tenacity's `RetryError` wrapping the third
attempt's exception, after exactly 3 attempts and 2 waits. -/
theorem fetch_raw_all_fail {provider : Provider} {sc sd ed : String}
    (hv : matchesTickerRegex (pyUpper (pyStrip sc)) = true)
    (h1 : providerFail (provider 1)) (h2 : providerFail (provider 2))
    (h3 : providerFail (provider 3)) :
    ∃ e3, _fetch_body provider sc sd ed 3 = .error e3 ∧
      _fetch_raw_data provider sc sd ed =
        (.error (.retryError e3), 3,
          [wait_exponential 1 2 10 1, wait_exponential 1 2 10 2]) ∧
      (provider 3 = .ok none →
        e3 = .dataFetch (fetchEmptyMsg (pyUpper (pyStrip sc)))) := by
  obtain ⟨e1, he1⟩ := fetch_body_err provider sc sd ed hv h1
  obtain ⟨e2, he2⟩ := fetch_body_err provider sc sd ed hv h2
  obtain ⟨e3, he3⟩ := fetch_body_err provider sc sd ed hv h3
  refine ⟨e3, he3, ?_, ?_⟩
  · rcases tenacityRun3_spec (_fetch_body provider sc sd ed)
        (wait_exponential 1 2 10) with
      ⟨a, ha, -⟩ | ⟨e, a, -, ha, -⟩ | ⟨e, e2', a, -, -, ha, -⟩ |
      ⟨e, e2', e3', -, -, ha, hrun⟩
    · rw [he1] at ha; exact absurd ha (by simp)
    · rw [he2] at ha; exact absurd ha (by simp)
    · rw [he3] at ha; exact absurd ha (by simp)
    · rw [he3] at ha
      have := Except.error.inj ha
      rw [_fetch_raw_data, hrun, ← this]
  · intro hnone
    have := fetch_body_err_empty provider sc sd ed hv hnone
    rw [he3] at this
    exact Except.error.inj this

/-- `_fetch_raw_data` never makes more than 3 attempts, and every wait it
performs lies within the configured backoff bounds `[2, 10]` (at most 2
waits). -/
theorem fetch_raw_attempts_waits (provider : Provider) (sc sd ed : String) :
    (_fetch_raw_data provider sc sd ed).2.1 ≤ 3 ∧
    (_fetch_raw_data provider sc sd ed).2.2.length ≤ 2 ∧
    ∀ w ∈ (_fetch_raw_data provider sc sd ed).2.2, 2 ≤ w ∧ w ≤ 10 := by
  rw [_fetch_raw_data]
  rcases tenacityRun3_spec (_fetch_body provider sc sd ed)
      (wait_exponential 1 2 10) with
    ⟨a, -, hrun⟩ | ⟨e, a, -, -, hrun⟩ | ⟨e, e2, a, -, -, -, hrun⟩ |
    ⟨e, e2, e3, -, -, -, hrun⟩
  · rw [hrun]
    refine ⟨by norm_num, by norm_num, ?_⟩
    intro w hw
    exact absurd hw (List.not_mem_nil w)
  · rw [hrun]
    refine ⟨by norm_num, by norm_num, ?_⟩
    intro w hw
    rcases List.mem_cons.mp hw with hw | hw
    · rw [hw]; exact wait_exponential_bounds 1
    · exact absurd hw (List.not_mem_nil w)
  · rw [hrun]
    refine ⟨by norm_num, by norm_num, ?_⟩
    intro w hw
    rcases List.mem_cons.mp hw with hw | hw
    · rw [hw]; exact wait_exponential_bounds 1
    rcases List.mem_cons.mp hw with hw | hw
    · rw [hw]; exact wait_exponential_bounds 2
    · exact absurd hw (List.not_mem_nil w)
  · rw [hrun]
    refine ⟨by norm_num, by norm_num, ?_⟩
    intro w hw
    rcases List.mem_cons.mp hw with hw | hw
    · rw [hw]; exact wait_exponential_bounds 1
    rcases List.mem_cons.mp hw with hw | hw
    · rw [hw]; exact wait_exponential_bounds 2
    · exact absurd hw (List.not_mem_nil w)

/-! ### Facade lemmas and message distinctness -/

theorem validate_err_of_false {s : String}
    (h : matchesTickerRegex (pyUpper (pyStrip s)) = false) :
    _validate_us_stock_code s = .error (.dataFetch (validationMsg s)) := by
  simp [_validate_us_stock_code, h]

theorem fetchHistory_validate_fail {provider : Provider} {sc sd ed : String}
    (hv : matchesTickerRegex (pyUpper (pyStrip sc)) = false) :
    fetchHistory provider sc sd ed =
      (.error (.dataFetch (validationMsg sc)), 0, []) := by
  simp [fetchHistory, validate_err_of_false hv]

theorem fetchHistory_fetch_error {provider : Provider} {sc sd ed : String}
    (hv : matchesTickerRegex (pyUpper (pyStrip sc)) = true) {e : PyErr}
    {n : Nat} {ws : List ℚ}
    (hf : _fetch_raw_data provider sc sd ed = (.error e, n, ws)) :
    (fetchHistory provider sc sd ed).1 = .error e := by
  simp [fetchHistory, validate_ok_of_true hv, hf]

theorem validation_ne_fetch_msg (a b : String) :
    validationMsg a ≠ fetchEmptyMsg b := fun h => by
  have h2 : (validationMsg a).data.headD ' ' = (fetchEmptyMsg b).data.headD ' ' :=
    congrArg (fun s => s.data.headD ' ') h
  have e1 : (validationMsg a).data.headD ' ' = '非' := rfl
  have e2 : (fetchEmptyMsg b).data.headD ' ' = 'Y' := rfl
  rw [e1, e2] at h2
  exact absurd h2 (by decide)

theorem validation_ne_norm_msg (a b : String) :
    validationMsg a ≠ normEmptyMsg b := fun h => by
  have h2 : (validationMsg a).data.headD ' ' = (normEmptyMsg b).data.headD ' ' :=
    congrArg (fun s => s.data.headD ' ') h
  have e1 : (validationMsg a).data.headD ' ' = '非' := rfl
  have e2 : (normEmptyMsg b).data.headD ' ' = '标' := rfl
  rw [e1, e2] at h2
  exact absurd h2 (by decide)

theorem fetch_ne_norm_msg (a b : String) :
    fetchEmptyMsg a ≠ normEmptyMsg b := fun h => by
  have h2 : (fetchEmptyMsg a).data.headD ' ' = (normEmptyMsg b).data.headD ' ' :=
    congrArg (fun s => s.data.headD ' ') h
  have e1 : (fetchEmptyMsg a).data.headD ' ' = 'Y' := rfl
  have e2 : (normEmptyMsg b).data.headD ' ' = '标' := rfl
  rw [e1, e2] at h2
  exact absurd h2 (by decide)

/-! ### Claims C2, C5, C4 -/

/-- C2 (amended): for every provider stub and valid ticker, the retrying
fetch makes at most 3 attempts; an empty or absent provider result is
retried exactly like a provider exception; failing twice and then
succeeding with a nonempty table returns that table after exactly 3
attempts and 2 waits; when every attempt fails, the surfaced failure is
tenacity's `RetryError` wrapping the last attempt's exception (the
`DataFetchError` identifying the ticker when the provider returned no
data), not that exception itself; and every wait lies within the configured
bounds [2, 10]. -/
theorem retry_policy_amended (provider : Provider) (sc sd ed : String)
    (hv : matchesTickerRegex (pyUpper (pyStrip sc)) = true) :
    (_fetch_raw_data provider sc sd ed).2.1 ≤ 3 ∧
    (∀ df : RawTable, providerFail (provider 1) → providerFail (provider 2) →
      provider 3 = .ok (some df) → df ≠ [] →
      _fetch_raw_data provider sc sd ed =
        (.ok df, 3, [wait_exponential 1 2 10 1, wait_exponential 1 2 10 2])) ∧
    (providerFail (provider 1) → providerFail (provider 2) →
      providerFail (provider 3) →
      ∃ e3, _fetch_body provider sc sd ed 3 = .error e3 ∧
        _fetch_raw_data provider sc sd ed =
          (.error (.retryError e3), 3,
            [wait_exponential 1 2 10 1, wait_exponential 1 2 10 2]) ∧
        (provider 3 = .ok none →
          e3 = .dataFetch (fetchEmptyMsg (pyUpper (pyStrip sc))))) ∧
    (∀ w ∈ (_fetch_raw_data provider sc sd ed).2.2, 2 ≤ w ∧ w ≤ 10) := by
  refine ⟨(fetch_raw_attempts_waits provider sc sd ed).1, ?_, ?_,
    (fetch_raw_attempts_waits provider sc sd ed).2.2⟩
  · intro df h1 h2 hp3 hne
    exact fetch_raw_succeed_third hv h1 h2 hp3 hne
  · intro h1 h2 h3
    exact fetch_raw_all_fail hv h1 h2 h3

/-- A provider that always raises a non-`DataFetchError` exception. -/
def stubAlwaysRaise : Provider := fun _ => .error (.other "connection reset")

/-- A provider that fails on attempts 1 and 2 and succeeds on attempt 3. -/
def stubFailTwice : Provider := fun i =>
  if i = 1 then .error (.other "boom")
  else if i = 2 then .ok none
  else .ok (some df3)

/-- A provider that always returns no data (`yf.download` giving `None`). -/
def stubAlwaysEmpty : Provider := fun _ => .ok none

/-- Counterexample to C2 as stated: with a provider failing on every
attempt, the failure finally surfaced by the retrying fetch is tenacity's
`RetryError` wrapping the last exception — not a `DataFetchError` (the
spec's `FetchError`), and not an error mentioning the ticker. -/
theorem retry_exhaustion_surfaces_retry_error :
    (_fetch_raw_data stubAlwaysRaise "AAPL" "2024-01-01" "2024-06-30").1 =
      .error (.retryError (.other "connection reset")) ∧
    isBareDataFetch
      (_fetch_raw_data stubAlwaysRaise "AAPL" "2024-01-01" "2024-06-30").1 =
      false := ⟨rfl, rfl⟩

/-- Witness for C2 (amended): a stub failing twice then succeeding returns
the table after exactly 3 attempts, and an always-empty stub surfaces a
`RetryError` wrapping the ticker-identifying fetch error. -/
theorem retry_policy_amended_witness :
    _fetch_raw_data stubFailTwice "AAPL" "a" "b" =
      (.ok df3, 3, [wait_exponential 1 2 10 1, wait_exponential 1 2 10 2]) ∧
    (_fetch_raw_data stubAlwaysEmpty "AAPL" "a" "b").1 =
      .error (.retryError (.dataFetch (fetchEmptyMsg "AAPL"))) := by
  constructor
  · exact (retry_policy_amended stubFailTwice "AAPL" "a" "b" (by decide)).2.1
      df3 (by trivial) (by trivial) rfl (by simp [df3])
  · obtain ⟨e3, -, hrun, hid⟩ :=
      (retry_policy_amended stubAlwaysEmpty "AAPL" "a" "b" (by decide)).2.2.1
        (by trivial) (by trivial) (by trivial)
    rw [hid rfl] at hrun
    rw [hrun]
    rfl

/-- C5: an input failing validation makes the composed fetch operation fail
with the validation error alone, raised once: 0 provider attempts, no
retries, no waits. -/
theorem invalid_ticker_no_fetch_attempt (provider : Provider)
    (sc sd ed : String)
    (hv : matchesTickerRegex (pyUpper (pyStrip sc)) = false) :
    fetchHistory provider sc sd ed =
      (.error (.dataFetch (validationMsg sc)), 0, []) :=
  fetchHistory_validate_fail hv

/-- Witness for C5 at `"appl3"` against a provider that would raise. -/
theorem invalid_ticker_no_fetch_attempt_witness :
    fetchHistory stubAlwaysRaise "appl3" "2024-01-01" "2024-06-30" =
      (.error (.dataFetch (validationMsg "appl3")), 0, []) :=
  invalid_ticker_no_fetch_attempt stubAlwaysRaise "appl3" "2024-01-01"
    "2024-06-30" (by decide)

/-- C4 (amended): the three failure kinds are `DataFetchError` values with
pairwise distinct messages, and the composition short-circuits on the first
failure — but the fetch-exhaustion failure reaches the caller wrapped in
tenacity's `RetryError` rather than as the bare `DataFetchError`: a
malformed ticker fails with the validation error before any attempt, an
exhausted provider surfaces `RetryError` around the last fetch failure, and
an empty table fails normalization with the normalization error. -/
theorem error_taxonomy_amended (provider : Provider)
    (sc sd ed code : String) :
    (matchesTickerRegex (pyUpper (pyStrip sc)) = false →
      fetchHistory provider sc sd ed =
        (.error (.dataFetch (validationMsg sc)), 0, [])) ∧
    (matchesTickerRegex (pyUpper (pyStrip sc)) = true →
      providerFail (provider 1) → providerFail (provider 2) →
      providerFail (provider 3) →
      ∃ e3, _fetch_body provider sc sd ed 3 = .error e3 ∧
        (fetchHistory provider sc sd ed).1 = .error (.retryError e3)) ∧
    (_normalize_data ([] : RawTable) code =
      .error (.dataFetch (normEmptyMsg code))) ∧
    (∀ a b, validationMsg a ≠ fetchEmptyMsg b) ∧
    (∀ a b, validationMsg a ≠ normEmptyMsg b) ∧
    (∀ a b, fetchEmptyMsg a ≠ normEmptyMsg b) := by
  refine ⟨fun hv => fetchHistory_validate_fail hv, ?_, rfl,
    validation_ne_fetch_msg, validation_ne_norm_msg, fetch_ne_norm_msg⟩
  intro hv h1 h2 h3
  obtain ⟨e3, hb, hrun, -⟩ := fetch_raw_all_fail hv h1 h2 h3
  exact ⟨e3, hb, fetchHistory_fetch_error hv hrun⟩

/-- Counterexample to C4 as stated: after exhausted retries the pipeline
error surfaced to the caller is not a bare `DataFetchError` (the spec's
`FetchError`): it is the tenacity `RetryError` wrapper. -/
theorem pipeline_exhaustion_not_bare_fetch_error :
    (fetchHistory stubAlwaysEmpty "MSFT" "2024-01-01" "2024-06-30").1 =
      .error (.retryError (.dataFetch (fetchEmptyMsg "MSFT"))) ∧
    isBareDataFetch
      (fetchHistory stubAlwaysEmpty "MSFT" "2024-01-01" "2024-06-30").1 =
      false := ⟨rfl, rfl⟩

/-- Witness for C4 (amended) at concrete inputs. -/
theorem error_taxonomy_amended_witness :
    fetchHistory stubAlwaysEmpty "bad!" "a" "b" =
      (.error (.dataFetch (validationMsg "bad!")), 0, []) ∧
    (∃ e3, _fetch_body stubAlwaysEmpty "QQQ" "a" "b" 3 = .error e3 ∧
      (fetchHistory stubAlwaysEmpty "QQQ" "a" "b").1 =
        .error (.retryError e3)) ∧
    _normalize_data ([] : RawTable) "IWM" =
      .error (.dataFetch (normEmptyMsg "IWM")) ∧
    validationMsg "X" ≠ fetchEmptyMsg "X" ∧
    validationMsg "X" ≠ normEmptyMsg "X" ∧
    fetchEmptyMsg "X" ≠ normEmptyMsg "X" :=
  ⟨(error_taxonomy_amended stubAlwaysEmpty "bad!" "a" "b" "IWM").1 (by decide),
   (error_taxonomy_amended stubAlwaysEmpty "QQQ" "a" "b" "IWM").2.1 (by decide)
     trivial trivial trivial,
   (error_taxonomy_amended stubAlwaysEmpty "QQQ" "a" "b" "IWM").2.2.1,
   (error_taxonomy_amended stubAlwaysEmpty "QQQ" "a" "b" "IWM").2.2.2.1 "X" "X",
   (error_taxonomy_amended stubAlwaysEmpty "QQQ" "a" "b" "IWM").2.2.2.2.1 "X" "X",
   (error_taxonomy_amended stubAlwaysEmpty "QQQ" "a" "b" "IWM").2.2.2.2.2 "X" "X"⟩

/-! ### Claim C8: market overview -/

theorem providerHasData_error {provider : IndexProvider} {c : String}
    {e : String} (hp : provider c = .error e) :
    providerHasData provider c = false := by
  simp [providerHasData, hp]

theorem providerHasData_ok {provider : IndexProvider} {c : String}
    {hist : List Bar} (hp : provider c = .ok hist) :
    providerHasData provider c = !hist.isEmpty := by
  simp [providerHasData, hp]

theorem keepIndex_error {provider : IndexProvider} {cn : String × String}
    {e : String} (hp : provider cn.1 = .error e) :
    keepIndex provider cn = none := by
  simp [keepIndex, hp]

theorem keepIndex_ok {provider : IndexProvider} {cn : String × String}
    {hist : List Bar} (hp : provider cn.1 = .ok hist) :
    keepIndex provider cn =
      if hist.isEmpty then none else some (buildIndex cn.1 cn.2 hist) := by
  simp [keepIndex, hp]

theorem buildIndex_code (c n : String) (hist : List Bar) :
    (buildIndex c n hist).code = c := rfl

/-- C8: per configured index symbol, the overview builder keeps exactly the
symbols whose fetch succeeded with a nonempty history, in the original
configured order; a raised exception or an empty history only omits that
symbol; the builder is a total function (no exception reaches the caller). -/
theorem overview_skips_failures_keeps_order (provider : IndexProvider)
    (cfg : List (String × String)) :
    ((_get_main_indices provider cfg).map MarketIndex.code =
      (cfg.filter (fun cn => providerHasData provider cn.1)).map Prod.fst) ∧
    (∀ c n hist, (c, n) ∈ cfg → provider c = .ok hist → hist ≠ [] →
      buildIndex c n hist ∈ _get_main_indices provider cfg) ∧
    (∀ idx ∈ _get_main_indices provider cfg,
      ∃ c n hist, (c, n) ∈ cfg ∧ provider c = .ok hist ∧ hist ≠ [] ∧
        idx = buildIndex c n hist) := by
  refine ⟨?_, ?_, ?_⟩
  · induction cfg with
    | nil => rfl
    | cons cn rest ih =>
      rw [_get_main_indices] at ih ⊢
      rw [List.filterMap_cons, List.filter_cons]
      cases hp : provider cn.1 with
      | error e =>
        simp only [keepIndex_error hp, providerHasData_error hp,
          Bool.false_eq_true, if_false]
        exact ih
      | ok hist =>
        cases hh : hist.isEmpty with
        | true =>
          simp only [keepIndex_ok hp, providerHasData_ok hp, hh,
            Bool.not_true, Bool.false_eq_true, if_false, if_pos rfl]
          exact ih
        | false =>
          simp only [keepIndex_ok hp, providerHasData_ok hp, hh,
            Bool.not_false, Bool.false_eq_true, if_false, if_pos rfl, if_true,
            List.map_cons, buildIndex_code, List.cons.injEq]
          exact ⟨trivial, ih⟩
  · intro c n hist hmem hp hne
    refine List.mem_filterMap.mpr ⟨(c, n), hmem, ?_⟩
    simp [keepIndex, hp, isEmpty_false_of_ne_nil hne]
  · intro idx hidx
    obtain ⟨cn, hmem, hf⟩ := List.mem_filterMap.mp hidx
    cases hp : provider cn.1 with
    | error e =>
      rw [keepIndex_error hp] at hf
      exact absurd hf (by simp)
    | ok hist =>
      rw [keepIndex_ok hp] at hf
      cases hh : hist.isEmpty with
      | true =>
        rw [hh] at hf
        simp at hf
      | false =>
        rw [hh] at hf
        simp only [Bool.false_eq_true, if_false, Option.some.injEq] at hf
        refine ⟨cn.1, cn.2, hist, by simpa using hmem, hp, ?_, hf.symm⟩
        intro hnil
        rw [hnil] at hh
        exact absurd hh (by simp)

def barA : Bar := { open_ := 1, high := 2, low := 3, close := 4 }

def barB : Bar := { open_ := 2, high := 3, low := 4, close := 5 }

/-- An index provider stub where exactly the Dow Jones symbol raises. -/
def stubIndexProvider : IndexProvider := fun code =>
  if code = "^DJI" then .error "boom" else .ok [barA, barB]

/-- Witness for C8: with the Dow Jones fetch raising, the overview contains
exactly the other three configured indices, in configured order, and the
S&P 500 snapshot is among them. -/
theorem overview_skips_failures_keeps_order_witness :
    (_get_main_indices stubIndexProvider MAIN_INDICES).map MarketIndex.code =
      ["^GSPC", "^IXIC", "^VIX"] ∧
    buildIndex "^GSPC" "S&P 500" [barA, barB] ∈
      _get_main_indices stubIndexProvider MAIN_INDICES := by
  constructor
  · rw [(overview_skips_failures_keeps_order stubIndexProvider MAIN_INDICES).1]
    rfl
  · exact (overview_skips_failures_keeps_order stubIndexProvider
      MAIN_INDICES).2.1 "^GSPC" "S&P 500" [barA, barB] (by decide) rfl
      (List.cons_ne_nil _ _)

end DailyStock
